import Mathlib

/- Verification development for the Monero HD-wallet factory
   (py_crypto_hd_wallet/monero/hd_wallet_monero_factory.py).

   The factory file itself is embedded directly.  The collaborators it calls
   (the bip_utils Monero key-derivation engine, the mnemonic/seed transform,
   the HdWalletMonero entity, the enums and the hex utility) are not part of
   the embedded source tree; they are modelled from the specification, as
   marked on each definition. -/

set_option maxRecDepth 8192

/-- Modelled from the spec: the curve group order used for scalar reduction
    (the ed25519 group order, "reduced modulo the curve's group order"). -/
def curveOrder : Nat := 2 ^ 252 + 27742317777372353535851937790883648493

/-- Little-endian interpretation of a byte list as a natural number. -/
def bytesToNat (bs : List Nat) : Nat := bs.foldr (fun b acc => b + 256 * acc) 0

/-- Little-endian 32-byte encoding of a natural number (truncated mod 2^256). -/
def natToBytes32 (n : Nat) : List Nat := (List.range 32).map (fun i => n / 256 ^ i % 256)

/-- Modelled from the spec: executable stand-in for the external one-way
    hash-to-scalar ("a one-way deterministic hash reduced modulo the curve's
    group order").  The claims depend only on it being a deterministic
    function into scalars mod the group order. -/
def hashToScalar (n : Nat) : Nat := (n * 2654435761 + 2654435769) % curveOrder

/-- Modelled from the spec: DeriveViewKeyFromSpendKey, the deterministic
    spend-to-view scalar derivation. -/
def deriveViewKeyFromSpendKey (s : Nat) : Nat := hashToScalar s

/-- Modelled from the spec: a scalar is valid when it is neither zero nor
    at least the group order ("fails with InvalidKey if the scalar is zero
    or >= group order"). -/
def validScalar (s : Nat) : Bool := decide (s ≠ 0 ∧ s < curveOrder)

/-- Modelled from the spec: an encoded curve point, kept abstract.  A point
    obtained by base-point multiplication is represented by its discrete
    logarithm mod the group order; a point decoded from supplied bytes by its
    byte encoding. -/
structure PubKey where
  val : Nat
deriving DecidableEq, Repr

/-- Modelled from the spec: scalar multiplication of the curve base point,
    injective on valid scalars. -/
def basePointMul (s : Nat) : PubKey := ⟨s % curveOrder⟩

/-- Exceptions raised by the external engine and the seed generator:
    MoneroChecksumError, MoneroKeyError, and the ValueError the mnemonic
    decoder raises on an out-of-dictionary word. -/
inductive LowError
| moneroChecksumError
| moneroKeyError
| wordValueError (msg : String)
deriving DecidableEq, Repr

/-- Python-level exceptions observable at the factory boundary: TypeError,
    ValueError (optionally chaining a lower-level cause, as `raise ... from ex`),
    or an engine exception propagating unwrapped. -/
inductive PyError
| typeError (msg : String)
| valueError (msg : String) (cause : Option LowError)
| low (e : LowError)
deriving DecidableEq, Repr

/-- Modelled from the spec: PublicFromPrivate, scalar base-point
    multiplication failing with InvalidKey on a zero or non-reduced scalar. -/
def publicFromPrivate (s : Nat) : Except LowError PubKey :=
  if validScalar s = true then .ok (basePointMul s) else .error .moneroKeyError

/-- Modelled from the spec: the key tuple held by the engine's wallet object
    (private spend key optional in watch-only mode). -/
structure MoneroObj where
  privSpendKey : Option Nat
  privViewKey : Nat
  pubSpendKey : PubKey
  pubViewKey : PubKey
deriving DecidableEq, Repr

/-- Modelled from the spec: derive the full key tuple from a private spend
    scalar: view key by the deterministic derivation, both public keys by
    base-point multiplication. -/
def walletFromSpendScalar (s : Nat) : Except LowError MoneroObj :=
  match publicFromPrivate s with
  | .error e => .error e
  | .ok pS =>
    match publicFromPrivate (deriveViewKeyFromSpendKey s) with
    | .error e => .error e
    | .ok pV => .ok ⟨some s, deriveViewKeyFromSpendKey s, pS, pV⟩

/-- Modelled from the spec: scalar reduction of arbitrary seed bytes
    ("deterministic hash-then-mod-order operation mapping arbitrary bytes to
    a curve group scalar"). -/
def reduceSeed (bs : List Nat) : Nat := bytesToNat bs % curveOrder

namespace Monero

/-- Modelled from the spec: WalletFromSeed — reduce the seed bytes to the
    private spend scalar, then derive the remaining keys.  No length
    restriction: reduction accepts arbitrary bytes. -/
def FromSeed (seedBytes : List Nat) : Except LowError MoneroObj :=
  walletFromSpendScalar (reduceSeed seedBytes)

/-- Modelled from the spec: WalletFromPrivateSpendKey — fails with InvalidKey
    unless the input is a 32-byte encoding of a valid reduced scalar. -/
def FromPrivateSpendKey (bs : List Nat) : Except LowError MoneroObj :=
  if bs.length = 32 ∧ validScalar (bytesToNat bs) = true then
    walletFromSpendScalar (bytesToNat bs)
  else .error .moneroKeyError

/-- Modelled from the spec: WalletFromWatchOnly — fails with InvalidKey if
    either input is malformed (wrong length, invalid scalar); the public view
    key is derived from the supplied private view key. -/
def FromWatchOnly (privVKey pubSKey : List Nat) : Except LowError MoneroObj :=
  if privVKey.length = 32 ∧ validScalar (bytesToNat privVKey) = true then
    if pubSKey.length = 32 then
      match publicFromPrivate (bytesToNat privVKey) with
      | .ok pubV => .ok ⟨none, bytesToNat privVKey, ⟨bytesToNat pubSKey⟩, pubV⟩
      | .error e => .error e
    else .error .moneroKeyError
  else .error .moneroKeyError

end Monero

/-- Modelled from the spec: size of each language's word dictionary (the
    word lists themselves are an external collaborator; words are modelled by
    their dictionary indices). -/
def dictSize : Nat := 1626

/-- Mirrors HdWalletMoneroWordsNum: the supported mnemonic word counts. -/
inductive HdWalletMoneroWordsNum
| WN12
| WN13
| WN24
| WN25
deriving DecidableEq, Repr

/-- Number of words of a WordsNum member. -/
def HdWalletMoneroWordsNum.count : HdWalletMoneroWordsNum → Nat
| .WN12 => 12
| .WN13 => 13
| .WN24 => 24
| .WN25 => 25

/-- Mirrors HdWalletMoneroLanguages: the supported mnemonic languages. -/
inductive HdWalletMoneroLanguages
| english
| chineseSimplified
| dutch
| french
| german
| italian
| japanese
| portuguese
| russian
| spanish
deriving DecidableEq, Repr

/-- Membership of a word (index) in the dictionary. -/
def wordInDict (w : Nat) : Bool := decide (w < dictSize)

/-- Modelled from the spec: executable stand-in for the external checksum
    function over a word sequence. -/
def checksumWord (ws : List Nat) : Nat := ws.sum % dictSize

/-- Modelled from the spec: executable stand-in for the word-list bit-packing
    decoding a word sequence back into the 32 raw seed bytes. -/
def decodeWords (ws : List Nat) : List Nat :=
  natToBytes32 (ws.foldl (fun acc w => acc * dictSize + w) 0)

/-- Modelled from the spec: MnemonicToSeed / MoneroSeedGenerator.Generate —
    recompute the checksum word from all words but the last, fail with
    MoneroChecksumError on disagreement, fail with a ValueError on an
    out-of-dictionary word, otherwise decode the remaining words. -/
def mnemonicToSeed (ws : List Nat) : Except LowError (List Nat) :=
  match ws.getLast? with
  | none => .error (.wordValueError ("Invalid words count"))
  | some last =>
    if ws.all wordInDict then
      if checksumWord ws.dropLast = last then .ok (decodeWords ws.dropLast)
      else .error .moneroChecksumError
    else .error (.wordValueError ("Invalid word"))

/-- Modelled from the spec: GenerateMnemonic / MoneroMnemonicGenerator —
    pick the body words from the dictionary using the entropy drawn from the
    secure random source (passed explicitly here), then append the checksum
    word computed from them.  The per-language dictionaries live in the
    external word-list provider and are modelled uniformly. -/
def generateMnemonic (wn : HdWalletMoneroWordsNum) (_lang : HdWalletMoneroLanguages) (entropy : List Nat) : List Nat :=
  let body := (List.range (wn.count - 1)).map (fun i => entropy.getD i 0 % dictSize)
  body ++ [checksumWord body]

/-- Modelled from the spec: the HdWalletMonero entity — the engine key tuple
    plus name and the optional mnemonic and seed. -/
structure HdWalletMonero where
  walletName : String
  moneroObj : MoneroObj
  mnemonic : Option (List Nat) := none
  seedBytes : Option (List Nat) := none
deriving DecidableEq, Repr

/-- Read-only accessor for the private spend key. -/
def HdWalletMonero.privateSpendKey (w : HdWalletMonero) : Option Nat :=
  w.moneroObj.privSpendKey

/-- Read-only accessor for the private view key. -/
def HdWalletMonero.privateViewKey (w : HdWalletMonero) : Nat :=
  w.moneroObj.privViewKey

/-- Read-only accessor for the public spend key. -/
def HdWalletMonero.publicSpendKey (w : HdWalletMonero) : PubKey :=
  w.moneroObj.pubSpendKey

/-- Read-only accessor for the public view key. -/
def HdWalletMonero.publicViewKey (w : HdWalletMonero) : PubKey :=
  w.moneroObj.pubViewKey

/-- Modelled from the spec: the capability flag, CanSpend = private spend key
    present. -/
def HdWalletMonero.CanSpend (w : HdWalletMonero) : Bool :=
  w.privateSpendKey.isSome

/-- Hex digit for a value below 16, lowercase. -/
def hexDigit (n : Nat) : Char :=
  if n < 10 then Char.ofNat (48 + n) else Char.ofNat (87 + n)

/-- Two-digit lowercase hex rendering of one byte. -/
def byteToHex (b : Nat) : String := String.mk [hexDigit (b / 16 % 16), hexDigit (b % 16)]

/-- Modelled from the spec: Utils.BytesToHexString — bytes rendered in
    hexadecimal for diagnostics. -/
def bytesToHexString (bs : List Nat) : String := String.join (bs.map byteToHex)

/-- Space-separated rendering of a phrase (the f-string interpolation of the
    mnemonic in the diagnostic message). -/
def wordsToString (ws : List Nat) : String :=
  String.intercalate (" ") (ws.map Nat.repr)

/-- Dynamic (Python-level) argument values, used to mirror the runtime
    isinstance checks of CreateRandom. -/
inductive PyObj
| wordsNum (w : HdWalletMoneroWordsNum)
| lang (l : HdWalletMoneroLanguages)
| pyStr (s : String)
| pyInt (n : Nat)
deriving DecidableEq, Repr

/-- True when the dynamic value is a WordsNum enum member. -/
def isWordsNum : PyObj → Bool
| .wordsNum _ => true
| _ => false

/-- True when the dynamic value is a Language enum member. -/
def isLang : PyObj → Bool
| .lang _ => true
| _ => false

namespace HdWalletMoneroFactory

/-- CreateFromMnemonic: decode the mnemonic (wrapping ValueError and
    MoneroChecksumError into a ValueError reporting the phrase, with the
    cause chained), then Monero.FromSeed — whose exception, raised outside
    the try block, propagates unwrapped — and assemble the wallet with
    mnemonic and seed retained. -/
def CreateFromMnemonic (walletName : String) (mnemonic : List Nat) :
    Except PyError HdWalletMonero :=
  match mnemonicToSeed mnemonic with
  | .error ex =>
    .error (.valueError ("Invalid mnemonic: " ++ wordsToString mnemonic) (some ex))
  | .ok seedBytes =>
    match Monero.FromSeed seedBytes with
    | .error ex => .error (.low ex)
    | .ok mo => .ok ⟨walletName, mo, some mnemonic, some seedBytes⟩

/-- CreateFromSeed: Monero.FromSeed directly — no length check, no try
    block — and assemble the wallet with the seed retained, no mnemonic. -/
def CreateFromSeed (walletName : String) (seedBytes : List Nat) :
    Except PyError HdWalletMonero :=
  match Monero.FromSeed seedBytes with
  | .error ex => .error (.low ex)
  | .ok mo => .ok ⟨walletName, mo, none, some seedBytes⟩

/-- CreateFromPrivateKey: Monero.FromPrivateSpendKey, wrapping MoneroKeyError
    into a ValueError reporting the offending bytes in hexadecimal, with the
    cause chained. -/
def CreateFromPrivateKey (walletName : String) (privSKey : List Nat) :
    Except PyError HdWalletMonero :=
  match Monero.FromPrivateSpendKey privSKey with
  | .error ex =>
    .error (.valueError ("Invalid private spend key: " ++ bytesToHexString privSKey) (some ex))
  | .ok mo => .ok ⟨walletName, mo, none, none⟩

/-- CreateFromWatchOnly: Monero.FromWatchOnly, wrapping MoneroKeyError into a
    ValueError with the cause chained. -/
def CreateFromWatchOnly (walletName : String) (privVKey pubSKey : List Nat) :
    Except PyError HdWalletMonero :=
  match Monero.FromWatchOnly privVKey pubSKey with
  | .error ex => .error (.valueError ("Invalid keys for watch-only wallet") (some ex))
  | .ok mo => .ok ⟨walletName, mo, none, none⟩

/-- CreateRandom with dynamically typed enum arguments: the isinstance
    checks (TypeError on failure, words number checked first), then mnemonic
    generation and delegation to CreateFromMnemonic.  The secure random
    source is passed explicitly as the entropy argument. -/
def CreateRandomChecked (walletName : String) (wordsNum lang : PyObj)
    (entropy : List Nat) : Except PyError HdWalletMonero :=
  match wordsNum with
  | .wordsNum w =>
    match lang with
    | .lang l => CreateFromMnemonic walletName (generateMnemonic w l entropy)
    | _ => .error (.typeError ("Language is not an enumerative of HdWalletMoneroLanguages"))
  | _ => .error (.typeError ("Words number is not an enumerative of HdWalletMoneroWordsNum"))

/-- CreateRandom with the source's default arguments: 25 words, English. -/
def CreateRandom (walletName : String) (entropy : List Nat)
    (wordsNum : HdWalletMoneroWordsNum := .WN25) (lang : HdWalletMoneroLanguages := .english) :
    Except PyError HdWalletMonero :=
  CreateRandomChecked walletName (.wordsNum wordsNum) (.lang lang) entropy

end HdWalletMoneroFactory

deriving instance DecidableEq for Except

/-- True when a result is a value rather than an error. -/
def resultOk {ε α : Type} (r : Except ε α) : Bool :=
  match r with
  | .ok _ => true
  | .error _ => false

/-- Key material of a factory result, when a wallet was produced. -/
def resultKeys (r : Except PyError HdWalletMonero) : Option MoneroObj :=
  match r with
  | .ok w => some w.moneroObj
  | .error _ => none

/-- Wallet carried by a factory result, with a fallback for the error case
    (used only to name concrete wallets in closed statements). -/
def extractOk (r : Except PyError HdWalletMonero) : HdWalletMonero :=
  match r with
  | .ok w => w
  | .error _ => ⟨"", ⟨none, 0, ⟨0⟩, ⟨0⟩⟩, none, none⟩

open HdWalletMoneroFactory

/-- Inversion for PublicFromPrivate: a returned point is the base-point
    multiple of the scalar. -/
theorem publicFromPrivate_ok {s : Nat} {p : PubKey}
    (h : publicFromPrivate s = .ok p) : p = basePointMul s := by
  unfold publicFromPrivate at h
  split at h
  · injection h with h1
    exact h1.symm
  · cases h

/-- Shape of a successfully derived key tuple: spend scalar retained, view
    scalar derived, both public keys base-point multiples. -/
theorem walletFromSpendScalar_ok {t : Nat} {mo : MoneroObj}
    (h : walletFromSpendScalar t = .ok mo) :
    mo = ⟨some t, deriveViewKeyFromSpendKey t, basePointMul t,
      basePointMul (deriveViewKeyFromSpendKey t)⟩ := by
  unfold walletFromSpendScalar at h
  revert h
  generalize deriveViewKeyFromSpendKey t = d
  intro h
  rcases h1 : publicFromPrivate t with e | pS <;> rw [h1] at h
  · cases h
  · rcases h2 : publicFromPrivate d with e | pV <;> rw [h2] at h
    · cases h
    · injection h with h3
      rw [← h3, publicFromPrivate_ok h1, publicFromPrivate_ok h2]

/-- The key tuple derivation succeeds, with the canonical shape, whenever the
    spend scalar and the derived view scalar are both valid. -/
theorem walletFromSpendScalar_of_valid {t : Nat}
    (h1 : validScalar t = true)
    (h2 : validScalar (deriveViewKeyFromSpendKey t) = true) :
    walletFromSpendScalar t = .ok ⟨some t, deriveViewKeyFromSpendKey t,
      basePointMul t, basePointMul (deriveViewKeyFromSpendKey t)⟩ := by
  have hps : publicFromPrivate t = .ok (basePointMul t) := by
    unfold publicFromPrivate
    rw [if_pos h1]
  have hpv : publicFromPrivate (deriveViewKeyFromSpendKey t) =
      .ok (basePointMul (deriveViewKeyFromSpendKey t)) := by
    unfold publicFromPrivate
    rw [if_pos h2]
  unfold walletFromSpendScalar
  rw [hps, hpv]

/-- Inversion for CreateFromMnemonic: a returned wallet decodes the phrase,
    derives its keys from the reduced seed, and retains phrase and seed. -/
theorem createFromMnemonic_ok {name : String} {m : List Nat} {w : HdWalletMonero}
    (h : CreateFromMnemonic name m = .ok w) :
    ∃ seed, mnemonicToSeed m = .ok seed ∧
      walletFromSpendScalar (reduceSeed seed) = .ok w.moneroObj ∧
      w.walletName = name ∧ w.mnemonic = some m ∧ w.seedBytes = some seed := by
  unfold CreateFromMnemonic at h
  split at h
  · cases h
  · rename_i seed hm
    split at h
    · cases h
    · rename_i mo hw
      injection h with h2
      subst h2
      exact ⟨seed, hm, hw, rfl, rfl, rfl⟩

/-- Inversion for CreateFromSeed: a returned wallet derives its keys from the
    reduced seed and retains the seed, with no mnemonic. -/
theorem createFromSeed_ok {name : String} {sb : List Nat} {w : HdWalletMonero}
    (h : CreateFromSeed name sb = .ok w) :
    walletFromSpendScalar (reduceSeed sb) = .ok w.moneroObj ∧
    w.walletName = name ∧ w.mnemonic = none ∧ w.seedBytes = some sb := by
  unfold CreateFromSeed at h
  split at h
  · cases h
  · injection h with h2
    subst h2
    rename_i mo hw
    exact ⟨hw, rfl, rfl, rfl⟩

/-- Inversion for CreateFromPrivateKey: a returned wallet derives its keys
    from the supplied 32-byte valid scalar, retaining neither mnemonic nor
    seed. -/
theorem createFromPrivateKey_ok {name : String} {k : List Nat} {w : HdWalletMonero}
    (h : CreateFromPrivateKey name k = .ok w) :
    walletFromSpendScalar (bytesToNat k) = .ok w.moneroObj ∧
    w.walletName = name ∧ w.mnemonic = none ∧ w.seedBytes = none := by
  unfold CreateFromPrivateKey at h
  split at h
  · cases h
  · injection h with h2
    subst h2
    rename_i mo hw
    unfold Monero.FromPrivateSpendKey at hw
    split at hw
    · exact ⟨hw, rfl, rfl, rfl⟩
    · cases hw

/-- Inversion for CreateFromWatchOnly: a returned wallet has no private
    spend key and its public view key is derived from the supplied private
    view key. -/
theorem createFromWatchOnly_ok {name : String} {pv ps : List Nat} {w : HdWalletMonero}
    (h : CreateFromWatchOnly name pv ps = .ok w) :
    w.moneroObj.privSpendKey = none ∧
    publicFromPrivate (bytesToNat pv) = .ok w.moneroObj.pubViewKey ∧
    w.mnemonic = none ∧ w.seedBytes = none := by
  unfold CreateFromWatchOnly at h
  split at h
  · cases h
  · injection h with h2
    subst h2
    rename_i mo hw
    unfold Monero.FromWatchOnly at hw
    split at hw
    · split at hw
      · split at hw
        · injection hw with h3
          subst h3
          rename_i pubV hp
          exact ⟨rfl, hp, rfl, rfl⟩
        · cases hw
      · cases hw
    · cases hw

/-- Claim C1: for every wallet returned by CreateFromMnemonic, CreateFromSeed
    or CreateFromPrivateKey, if the private spend key is present then the
    private view key is its deterministic derivation and both public keys are
    the base-point multiples of the corresponding private keys. -/
theorem wallet_keys_consistent (name : String) (input : List Nat) (w : HdWalletMonero)
    (hw : CreateFromMnemonic name input = .ok w ∨ CreateFromSeed name input = .ok w ∨
      CreateFromPrivateKey name input = .ok w)
    (s : Nat) (hs : w.privateSpendKey = some s) :
    w.privateViewKey = deriveViewKeyFromSpendKey s ∧
    w.publicSpendKey = basePointMul s ∧
    w.publicViewKey = basePointMul (deriveViewKeyFromSpendKey s) := by
  have hmo : ∃ t, walletFromSpendScalar t = .ok w.moneroObj := by
    rcases hw with h | h | h
    · obtain ⟨seed, _, hws, _⟩ := createFromMnemonic_ok h
      exact ⟨_, hws⟩
    · exact ⟨_, (createFromSeed_ok h).1⟩
    · exact ⟨_, (createFromPrivateKey_ok h).1⟩
  obtain ⟨t, ht⟩ := hmo
  have hshape := walletFromSpendScalar_ok ht
  have hts : t = s := by
    have hpsk : w.privateSpendKey = some t := by
      unfold HdWalletMonero.privateSpendKey
      rw [hshape]
    rw [hpsk] at hs
    injection hs
  subst hts
  refine ⟨?_, ?_, ?_⟩
  · unfold HdWalletMonero.privateViewKey
    rw [hshape]
  · unfold HdWalletMonero.publicSpendKey
    rw [hshape]
  · unfold HdWalletMonero.publicViewKey
    rw [hshape]

/-- Concrete wallet built from the private spend key bytes of the scalar 7,
    used to witness the key-consistency invariant. -/
def cpkW : HdWalletMonero := extractOk (CreateFromPrivateKey ("w") (natToBytes32 7))

/-- Witness for C1 at the concrete private spend key 7. -/
theorem wallet_keys_consistent_witness :
    cpkW.privateViewKey = deriveViewKeyFromSpendKey 7 ∧
    cpkW.publicSpendKey = basePointMul 7 ∧
    cpkW.publicViewKey = basePointMul (deriveViewKeyFromSpendKey 7) :=
  wallet_keys_consistent ("w") (natToBytes32 7) cpkW (Or.inr (Or.inr (by decide))) 7 (by decide)

/-- Claim C5: a wallet returned by CreateFromWatchOnly can never spend (its
    private spend key is absent) and its public view key is derived from the
    supplied private view key. -/
theorem watch_only_cannot_spend (name : String) (pv ps : List Nat) (w : HdWalletMonero)
    (h : CreateFromWatchOnly name pv ps = .ok w) :
    w.CanSpend = false ∧ publicFromPrivate (bytesToNat pv) = .ok w.publicViewKey := by
  obtain ⟨h1, h2, _, _⟩ := createFromWatchOnly_ok h
  constructor
  · unfold HdWalletMonero.CanSpend HdWalletMonero.privateSpendKey
    rw [h1]
    rfl
  · exact h2

/-- Concrete watch-only wallet used to witness C5. -/
def woW : HdWalletMonero :=
  extractOk (CreateFromWatchOnly ("w") (natToBytes32 1) (natToBytes32 2))

/-- Witness for C5 at concrete watch-only key material. -/
theorem watch_only_cannot_spend_witness :
    woW.CanSpend = false ∧
    publicFromPrivate (bytesToNat (natToBytes32 1)) = .ok woW.publicViewKey :=
  watch_only_cannot_spend ("w") (natToBytes32 1) (natToBytes32 2) woW (by decide)

/-- Claim C6: whenever the key-derivation engine rejects a private spend key,
    CreateFromPrivateKey fails with a ValueError that chains the underlying
    MoneroKeyError cause and reports the offending bytes in hexadecimal. -/
theorem invalid_private_key_reports_hex (name : String) (bs : List Nat) (e : LowError)
    (h : Monero.FromPrivateSpendKey bs = .error e) :
    CreateFromPrivateKey name bs =
      .error (.valueError ("Invalid private spend key: " ++ bytesToHexString bs) (some e)) := by
  unfold CreateFromPrivateKey
  rw [h]

/-- Witness for C6 at a concrete rejected (wrong-length) private spend key. -/
theorem invalid_private_key_reports_hex_witness :
    CreateFromPrivateKey ("w") [0, 0, 0] =
      .error (.valueError ("Invalid private spend key: " ++ bytesToHexString [0, 0, 0])
        (some .moneroKeyError)) :=
  invalid_private_key_reports_hex ("w") [0, 0, 0] .moneroKeyError (by decide)

/-- Claim C7: CreateRandom rejects a words-count or language argument that is
    not a member of the respective enum with a TypeError (the
    InvalidParameter kind), and otherwise returns exactly the result of
    delegating to CreateFromMnemonic on the generated mnemonic. -/
theorem create_random_validates_enums (name : String) (wn lg : PyObj) (entropy : List Nat) :
    ((isWordsNum wn = false ∨ isLang lg = false) →
      ∃ msg, CreateRandomChecked name wn lg entropy = .error (.typeError msg)) ∧
    (∀ wv lv, wn = .wordsNum wv → lg = .lang lv →
      CreateRandomChecked name wn lg entropy =
        CreateFromMnemonic name (generateMnemonic wv lv entropy)) := by
  constructor
  · intro hbad
    cases wn with
    | wordsNum wv =>
      cases lg with
      | lang lv =>
        exfalso
        rcases hbad with hb | hb <;> simp [isWordsNum, isLang] at hb
      | wordsNum x => exact ⟨_, rfl⟩
      | pyStr s => exact ⟨_, rfl⟩
      | pyInt n => exact ⟨_, rfl⟩
    | lang lv => exact ⟨_, rfl⟩
    | pyStr s => exact ⟨_, rfl⟩
    | pyInt n => exact ⟨_, rfl⟩
  · rintro wv lv rfl rfl
    rfl

/-- Witness for C7: a non-enum words-count value is rejected with a
    TypeError. -/
theorem create_random_validates_enums_witness :
    ∃ msg, CreateRandomChecked ("w") (.pyInt 3) (.lang .english) [] =
      .error (.typeError msg) :=
  (create_random_validates_enums ("w") (.pyInt 3) (.lang .english) []).1 (Or.inl rfl)

/-- Claim C10: calling CreateRandom with only a wallet name uses the default
    arguments, behaving identically to an explicit 25-word English request. -/
theorem create_random_defaults (name : String) (entropy : List Nat) :
    CreateRandom name entropy = CreateRandom name entropy .WN25 .english := rfl

/-- Claim C4: a wallet produced by CreateFromMnemonic retains its mnemonic
    together with the decoded seed; across every construction entry point,
    whenever the mnemonic field is present the seed field is present and
    equals the mnemonic-to-seed transform of it (the other entry points never
    set a mnemonic). -/
theorem mnemonic_implies_seed_roundtrip :
    (∀ name m w, CreateFromMnemonic name m = .ok w →
      ∃ s, mnemonicToSeed m = .ok s ∧ w.seedBytes = some s ∧ w.mnemonic = some m) ∧
    (∀ name sb w, CreateFromSeed name sb = .ok w → w.mnemonic = none) ∧
    (∀ name k w, CreateFromPrivateKey name k = .ok w → w.mnemonic = none) ∧
    (∀ name pv ps w, CreateFromWatchOnly name pv ps = .ok w → w.mnemonic = none) ∧
    (∀ name wn lg e w, CreateRandomChecked name wn lg e = .ok w →
      ∀ m, w.mnemonic = some m → ∃ s, mnemonicToSeed m = .ok s ∧ w.seedBytes = some s) := by
  refine ⟨?_, ?_, ?_, ?_, ?_⟩
  · intro name m w h
    obtain ⟨seed, hm, _, _, hmn, hsb⟩ := createFromMnemonic_ok h
    exact ⟨seed, hm, hsb, hmn⟩
  · intro name sb w h
    exact (createFromSeed_ok h).2.2.1
  · intro name k w h
    exact (createFromPrivateKey_ok h).2.2.1
  · intro name pv ps w h
    exact (createFromWatchOnly_ok h).2.2.1
  · intro name wn lg e w h m hm
    cases wn with
    | wordsNum wv =>
      cases lg with
      | lang lv =>
        have h2 : CreateFromMnemonic name (generateMnemonic wv lv e) = .ok w := h
        obtain ⟨seed, hm2, _, _, hmn, hsb⟩ := createFromMnemonic_ok h2
        rw [hmn] at hm
        injection hm with hm3
        subst hm3
        exact ⟨seed, hm2, hsb⟩
      | wordsNum x => cases h
      | pyStr s => cases h
      | pyInt n => cases h
    | lang lv => cases h
    | pyStr s => cases h
    | pyInt n => cases h

/-- Concrete valid 25-word mnemonic (24 body words plus matching checksum
    word) used by the round-trip witness. -/
def m0 : List Nat := List.replicate 24 1 ++ [24]

/-- Concrete wallet built from the mnemonic m0. -/
def cfmW : HdWalletMonero := extractOk (CreateFromMnemonic ("w") m0)

/-- Witness for C4 on the concrete mnemonic m0. -/
theorem mnemonic_implies_seed_roundtrip_witness :
    ∃ s, mnemonicToSeed m0 = .ok s ∧ cfmW.seedBytes = some s ∧ cfmW.mnemonic = some m0 :=
  mnemonic_implies_seed_roundtrip.1 ("w") m0 cfmW (by decide)

/-- Claim C8: view-key derivation is deterministic, and CreateFromSeed and
    CreateFromPrivateKey produce identical key material whenever their inputs
    reduce to the same valid private spend scalar. -/
theorem view_key_derivation_deterministic (n1 n2 : String) (seed k : List Nat) (s : Nat)
    (hs : reduceSeed seed = s) (hk : bytesToNat k = s) (hlen : k.length = 32)
    (hv : validScalar s = true) :
    deriveViewKeyFromSpendKey (reduceSeed seed) = deriveViewKeyFromSpendKey (bytesToNat k) ∧
    resultKeys (CreateFromSeed n1 seed) = resultKeys (CreateFromPrivateKey n2 k) := by
  constructor
  · rw [hs, hk]
  · have h1 : Monero.FromSeed seed = walletFromSpendScalar s := by
      unfold Monero.FromSeed
      rw [hs]
    have h2 : Monero.FromPrivateSpendKey k = walletFromSpendScalar s := by
      unfold Monero.FromPrivateSpendKey
      rw [hk, if_pos ⟨hlen, hv⟩]
    unfold CreateFromSeed CreateFromPrivateKey
    rw [h1, h2]
    rcases hws : walletFromSpendScalar s with e | mo <;> rfl

/-- Witness for C8 at the concrete spend scalar 1 reached from both entry
    points. -/
theorem view_key_derivation_deterministic_witness :
    deriveViewKeyFromSpendKey (reduceSeed (natToBytes32 1)) =
      deriveViewKeyFromSpendKey (bytesToNat (natToBytes32 1)) ∧
    resultKeys (CreateFromSeed ("a") (natToBytes32 1)) =
      resultKeys (CreateFromPrivateKey ("b") (natToBytes32 1)) :=
  view_key_derivation_deterministic ("a") ("b") (natToBytes32 1) (natToBytes32 1) 1
    (by decide) (by decide) (by decide) (by decide)

/-- Counterexample to C2: CreateFromSeed performs no length check, so 31- and
    33-byte seeds are accepted and produce wallets instead of failing with
    InvalidParameter. -/
theorem seed_wrong_length_accepted :
    resultOk (CreateFromSeed ("w") (List.replicate 31 1)) = true ∧
    resultOk (CreateFromSeed ("w") (List.replicate 33 1)) = true := by decide

/-- Claim C2 as amended: wrong-length inputs to CreateFromPrivateKey and to
    either argument of CreateFromWatchOnly deterministically fail with a
    typed ValueError wrapping the engine's key error; CreateFromSeed performs
    no length check and succeeds or fails exactly as the engine's seed
    reduction does. -/
theorem wrong_length_keys_fail (name : String) (bs other : List Nat)
    (h : bs.length ≠ 32) :
    CreateFromPrivateKey name bs =
      .error (.valueError ("Invalid private spend key: " ++ bytesToHexString bs)
        (some .moneroKeyError)) ∧
    CreateFromWatchOnly name bs other =
      .error (.valueError ("Invalid keys for watch-only wallet") (some .moneroKeyError)) ∧
    CreateFromWatchOnly name other bs =
      .error (.valueError ("Invalid keys for watch-only wallet") (some .moneroKeyError)) ∧
    resultOk (CreateFromSeed name bs) = resultOk (Monero.FromSeed bs) := by
  have hpk : Monero.FromPrivateSpendKey bs = .error .moneroKeyError := by
    unfold Monero.FromPrivateSpendKey
    rw [if_neg (fun hc => h hc.1)]
  refine ⟨?_, ?_, ?_, ?_⟩
  · unfold CreateFromPrivateKey
    rw [hpk]
  · have hwo : Monero.FromWatchOnly bs other = .error .moneroKeyError := by
      unfold Monero.FromWatchOnly
      rw [if_neg (fun hc => h hc.1)]
    unfold CreateFromWatchOnly
    rw [hwo]
  · by_cases hc : other.length = 32 ∧ validScalar (bytesToNat other) = true
    · have hwo : Monero.FromWatchOnly other bs = .error .moneroKeyError := by
        unfold Monero.FromWatchOnly
        rw [if_pos hc, if_neg h]
      unfold CreateFromWatchOnly
      rw [hwo]
    · have hwo : Monero.FromWatchOnly other bs = .error .moneroKeyError := by
        unfold Monero.FromWatchOnly
        rw [if_neg hc]
      unfold CreateFromWatchOnly
      rw [hwo]
  · unfold CreateFromSeed
    rcases hws : Monero.FromSeed bs with e | mo <;> rfl

/-- Witness for the amended C2 at a concrete 1-byte input. -/
theorem wrong_length_keys_fail_witness :
    CreateFromPrivateKey ("w") [1] =
      .error (.valueError ("Invalid private spend key: " ++ bytesToHexString [1])
        (some .moneroKeyError)) ∧
    CreateFromWatchOnly ("w") [1] (natToBytes32 1) =
      .error (.valueError ("Invalid keys for watch-only wallet") (some .moneroKeyError)) ∧
    CreateFromWatchOnly ("w") (natToBytes32 1) [1] =
      .error (.valueError ("Invalid keys for watch-only wallet") (some .moneroKeyError)) ∧
    resultOk (CreateFromSeed ("w") [1]) = resultOk (Monero.FromSeed [1]) :=
  wrong_length_keys_fail ("w") [1] (natToBytes32 1) (by decide)

/-- Counterexample to C3: the all-first-word 25-word phrase decodes
    successfully (its checksum word matches), yet CreateFromMnemonic fails,
    because the decoded all-zero seed reduces to the zero scalar, which the
    engine's PublicFromPrivate rejects; the engine error even propagates
    unwrapped rather than as an InvalidMnemonic. -/
theorem mnemonic_decode_ok_but_wallet_fails :
    mnemonicToSeed (List.replicate 25 0) = .ok (List.replicate 32 0) ∧
    CreateFromMnemonic ("w") (List.replicate 25 0) = .error (.low .moneroKeyError) := by
  decide

/-- Claim C3 as amended: a phrase failing the mnemonic decode makes
    CreateFromMnemonic fail with a ValueError that chains the lower-level
    cause and whose message reports exactly the offending phrase (the error
    value is a function of the phrase and cause only, never of any derived
    secret); a successfully decoding phrase yields a wallet retaining both
    mnemonic and seed provided the reduced spend scalar and derived view
    scalar are valid. -/
theorem mnemonic_error_wrapping (name : String) (ws : List Nat) :
    (∀ e, mnemonicToSeed ws = .error e →
      CreateFromMnemonic name ws =
        .error (.valueError ("Invalid mnemonic: " ++ wordsToString ws) (some e))) ∧
    (∀ seed w, mnemonicToSeed ws = .ok seed → CreateFromMnemonic name ws = .ok w →
      w.mnemonic = some ws ∧ w.seedBytes = some seed) ∧
    (∀ seed, mnemonicToSeed ws = .ok seed →
      validScalar (reduceSeed seed) = true →
      validScalar (deriveViewKeyFromSpendKey (reduceSeed seed)) = true →
      ∃ w, CreateFromMnemonic name ws = .ok w ∧
        w.mnemonic = some ws ∧ w.seedBytes = some seed) := by
  refine ⟨?_, ?_, ?_⟩
  · intro e he
    unfold CreateFromMnemonic
    rw [he]
  · intro seed w hm h
    obtain ⟨seed2, hm2, _, _, hmn, hsb⟩ := createFromMnemonic_ok h
    rw [hm] at hm2
    injection hm2 with hseq
    subst hseq
    exact ⟨hmn, hsb⟩
  · intro seed hm hv1 hv2
    have hfs : Monero.FromSeed seed =
        .ok ⟨some (reduceSeed seed), deriveViewKeyFromSpendKey (reduceSeed seed),
          basePointMul (reduceSeed seed),
          basePointMul (deriveViewKeyFromSpendKey (reduceSeed seed))⟩ := by
      unfold Monero.FromSeed
      exact walletFromSpendScalar_of_valid hv1 hv2
    refine ⟨⟨name, ⟨some (reduceSeed seed), deriveViewKeyFromSpendKey (reduceSeed seed),
      basePointMul (reduceSeed seed),
      basePointMul (deriveViewKeyFromSpendKey (reduceSeed seed))⟩,
      some ws, some seed⟩, ?_, rfl, rfl⟩
    simp only [CreateFromMnemonic, hm, hfs]

/-- Witness for the amended C3: a phrase with a wrong checksum word is
    rejected with the wrapped checksum cause and the phrase in the message. -/
theorem mnemonic_error_wrapping_witness :
    CreateFromMnemonic ("w") [0, 1] =
      .error (.valueError ("Invalid mnemonic: " ++ wordsToString [0, 1])
        (some .moneroChecksumError)) :=
  (mnemonic_error_wrapping ("w") [0, 1]).1 .moneroChecksumError (by decide)

/-- Decoding a body of in-dictionary words extended with its own checksum
    word always succeeds. -/
theorem mnemonicToSeed_concat (body : List Nat) (hall : ∀ x ∈ body, x < dictSize) :
    mnemonicToSeed (body ++ [checksumWord body]) = .ok (decodeWords body) := by
  have hcs : checksumWord body < dictSize := Nat.mod_lt _ (by decide)
  have hallb : (body ++ [checksumWord body]).all wordInDict = true := by
    rw [List.all_eq_true]
    intro x hx
    rcases List.mem_append.1 hx with hx | hx
    · unfold wordInDict
      exact decide_eq_true (hall x hx)
    · rw [List.mem_singleton] at hx
      subst hx
      unfold wordInDict
      exact decide_eq_true hcs
  unfold mnemonicToSeed
  rw [List.getLast?_concat]
  simp only [List.dropLast_concat, hallb, if_true]

/-- Counterexample to C9: the mnemonic generated from all-zero entropy (25
    copies of the first dictionary word) decodes successfully, yet
    CreateFromMnemonic fails on it — the decoded all-zero seed reduces to the
    zero scalar rejected by the engine — so no CanSpend wallet is produced. -/
theorem generated_mnemonic_zero_entropy_fails :
    resultOk (mnemonicToSeed (generateMnemonic .WN25 .english (List.replicate 24 0))) = true ∧
    resultOk (CreateFromMnemonic ("w")
      (generateMnemonic .WN25 .english (List.replicate 24 0))) = false := by
  decide

/-- Claim C9 as amended: every mnemonic generated by CreateRandom decodes
    successfully (its checksum word always matches), and whenever
    CreateFromMnemonic succeeds on such a mnemonic the resulting wallet has
    CanSpend = true; construction itself can still fail when the decoded seed
    reduces to a scalar the engine rejects. -/
theorem generated_mnemonic_decodes (wn : HdWalletMoneroWordsNum)
    (lang : HdWalletMoneroLanguages) (entropy : List Nat) (name : String) :
    (∃ seed, mnemonicToSeed (generateMnemonic wn lang entropy) = .ok seed) ∧
    (∀ w, CreateFromMnemonic name (generateMnemonic wn lang entropy) = .ok w →
      w.CanSpend = true) := by
  constructor
  · refine ⟨decodeWords ((List.range (wn.count - 1)).map
      (fun i => entropy.getD i 0 % dictSize)), ?_⟩
    have hb : ∀ x ∈ (List.range (wn.count - 1)).map (fun i => entropy.getD i 0 % dictSize),
        x < dictSize := by
      intro x hx
      rcases List.mem_map.1 hx with ⟨i, _, rfl⟩
      exact Nat.mod_lt _ (by decide)
    exact mnemonicToSeed_concat _ hb
  · intro w h
    obtain ⟨seed, _, hws, _⟩ := createFromMnemonic_ok h
    have hsh := walletFromSpendScalar_ok hws
    unfold HdWalletMonero.CanSpend HdWalletMonero.privateSpendKey
    rw [hsh]
    rfl

/-- Concrete wallet built from the mnemonic generated out of all-ones
    entropy, used to witness the amended C9. -/
def grW : HdWalletMonero :=
  extractOk (CreateFromMnemonic ("w")
    (generateMnemonic .WN25 .english (List.replicate 24 1)))

/-- Witness for the amended C9 at 25 words, English, all-ones entropy. -/
theorem generated_mnemonic_decodes_witness :
    (∃ seed, mnemonicToSeed (generateMnemonic .WN25 .english (List.replicate 24 1)) =
      .ok seed) ∧
    grW.CanSpend = true :=
  ⟨(generated_mnemonic_decodes .WN25 .english (List.replicate 24 1) ("w")).1,
   (generated_mnemonic_decodes .WN25 .english (List.replicate 24 1) ("w")).2 grW (by decide)⟩
